import Mathlib

/-!
Formal model of the build-state resolution pipeline of the
claude-xcode-bridge repository, embedded from
`src/statusline/xcode_statusline.py`, `src/statusline/xcode_build_watcher.py`
and `src/statusline/xcode_monitor_server.py`.

Strings are modelled as `List Char`; the filesystem, subprocess calls and
text decoding are abstracted as explicit inputs.  The fixed regular
expressions of `extract_errors_from_log` are modelled by direct executable
search functions that reproduce Python `re.search` semantics (leftmost match,
greedy quantifiers with backtracking) for exactly those patterns.
-/

/-- Python character class `\s` (ASCII range, as used on build-log text). -/
def isPySpace (c : Char) : Bool :=
  c = ' ' || c = '\t' || c = '\n' || c = '\r' || c = '\x0b' || c = '\x0c'

/-- Python character class `\d` (ASCII digits). -/
def isPyDigit (c : Char) : Bool :=
  '0' ≤ c && c ≤ '9'

/-- Character class `[0-9A-F]` of the hex-run filter
(xcode_statusline.py lines 211 and 231; no IGNORECASE flag there). -/
def isHexUpper (c : Char) : Bool :=
  ('0' ≤ c && c ≤ '9') || ('A' ≤ c && c ≤ 'F')

/-- ASCII lowering of one character (Python `str.lower` on ASCII text). -/
def toLowerAscii (c : Char) : Char :=
  if 'A' ≤ c && c ≤ 'Z' then Char.ofNat (c.toNat + 32) else c

/-- ASCII lowering of a string. -/
def lowerList (s : List Char) : List Char :=
  s.map toLowerAscii

/-- Python substring test `pat in s`. -/
def containsSub (pat : List Char) : List Char → Bool
  | [] => pat.isEmpty
  | c :: rest => pat.isPrefixOf (c :: rest) || containsSub pat rest

/-- The first `n` characters of `s` exist and satisfy `p`. -/
def startsRun (p : Char → Bool) : Nat → List Char → Bool
  | 0, _ => true
  | _ + 1, [] => false
  | n + 1, c :: rest => p c && startsRun p n rest

/-- `re.search` of a `{k,}` character-class run: some position of `s` starts
`k` consecutive characters in the class. -/
def hasRun (p : Char → Bool) (k : Nat) : List Char → Bool
  | [] => startsRun p k []
  | c :: rest => startsRun p k (c :: rest) || hasRun p k rest

/-- Consume a literal prefix. -/
def expectLit (lit s : List Char) : Option (List Char) :=
  if lit.isPrefixOf s then some (s.drop lit.length) else none

/-- `\d+` (greedy, nonempty); returns the digit run and the remainder. -/
def digits1 (s : List Char) : Option (List Char × List Char) :=
  let d := s.takeWhile isPyDigit
  if d.isEmpty then none else some (d, s.dropWhile isPyDigit)

/-- `\s+(.+)` with Python backtracking: the whitespace run is maximal, except
that one trailing whitespace character is ceded to `(.+)` when nothing else
remains after the run. -/
def wsMsg (s : List Char) : Option (List Char) :=
  let w := s.takeWhile isPySpace
  let r := s.dropWhile isPySpace
  if w.isEmpty then none
  else if r.isEmpty then
    if 2 ≤ s.length then some [s.getLastD ' '] else none
  else some r

/-- Tail of the tier-1 patterns after the closing `:` of the location group:
`\s+error:\s+(.+)` when `requireError`, else `\s+(.+)`. -/
def afterLoc (requireError : Bool) (s : List Char) : Option (List Char) :=
  if requireError then
    if (s.takeWhile isPySpace).isEmpty then none
    else
      match expectLit ("error:".toList) (s.dropWhile isPySpace) with
      | none => none
      | some r => wsMsg r
  else wsMsg s

/-- Matches `.swift:\d+:\d+:` followed by `afterLoc` at the head of `u`;
returns the length of the `.swift:\d+:\d+` span and the message group. -/
def swiftLocFrom (requireError : Bool) (u : List Char) : Option (Nat × List Char) :=
  match expectLit (".swift:".toList) u with
  | none => none
  | some r1 =>
    match digits1 r1 with
    | none => none
    | some (d1, r2) =>
      match r2 with
      | ':' :: r3 =>
        match digits1 r3 with
        | none => none
        | some (d2, r4) =>
          match r4 with
          | ':' :: r5 =>
            match afterLoc requireError r5 with
            | none => none
            | some msg => some (7 + d1.length + 1 + d2.length, msg)
          | _ => none
      | _ => none

/-- One greedy candidate for `(.+\.swift:\d+:\d+):…`: the literal `.swift:`
starts at index `p ≥ 1` of the line. -/
def tryLocAt (requireError : Bool) (s : List Char) (p : Nat) :
    Option (List Char × List Char) :=
  if p = 0 then none
  else (swiftLocFrom requireError (s.drop p)).map (fun nm => (s.take (p + nm.1), nm.2))

/-- Try indices `n, n-1, …, 0`; first success wins (greedy `.+` / `[^:]+`). -/
def searchDown (f : Nat → Option (List Char × List Char)) :
    Nat → Option (List Char × List Char)
  | 0 => f 0
  | n + 1 =>
    match f (n + 1) with
    | some x => some x
    | none => searchDown f n

/-- `re.search` of `(.+\.swift:\d+:\d+):\s+error:\s+(.+)` (requireError) or
`(.+\.swift:\d+:\d+):\s+(.+)` — patterns 1 and 2 of `swift_error_patterns`,
xcode_statusline.py:189-190.  Any match extends to one starting at position 0,
and the greedy leading `.+` picks the rightmost feasible `.swift:`. -/
def searchDotSwift (requireError : Bool) (s : List Char) :
    Option (List Char × List Char) :=
  searchDown (tryLocAt requireError s) s.length

/-- One greedy candidate for `/[^:]+\.swift…` after a `/`: `q ≥ 1` characters
of colon-free `[^:]+`, then the `.swift:` literal. -/
def trySlashQ (requireError : Bool) (r : List Char) (q : Nat) :
    Option (List Char × List Char) :=
  if q = 0 then none
  else if (r.take q).all (fun c => !(c = ':')) then
    (swiftLocFrom requireError (r.drop q)).map
      (fun nm => ('/' :: r.take (q + nm.1), nm.2))
  else none

/-- Match of patterns 3/4 starting exactly at index `i` (which must hold `/`). -/
def trySlashAt (requireError : Bool) (s : List Char) (i : Nat) :
    Option (List Char × List Char) :=
  match s.drop i with
  | '/' :: r => searchDown (trySlashQ requireError r) r.length
  | _ => none

/-- Try indices `i, i+1, …` (fuel-bounded); first success wins (leftmost). -/
def firstUp (f : Nat → Option (List Char × List Char)) :
    Nat → Nat → Option (List Char × List Char)
  | _, 0 => none
  | i, fuel + 1 =>
    match f i with
    | some x => some x
    | none => firstUp f (i + 1) fuel

/-- `re.search` of `(/[^:]+\.swift:\d+:\d+):\s+error:\s+(.+)` (requireError)
or `(/[^:]+\.swift:\d+:\d+):\s+(.+)` — patterns 3 and 4 of
`swift_error_patterns`, xcode_statusline.py:191-192. -/
def searchSlashSwift (requireError : Bool) (s : List Char) :
    Option (List Char × List Char) :=
  firstUp (trySlashAt requireError s) 0 (s.length + 1)

/-- A tier-1 pattern, as (slash-anchored form?, requires the `error:` marker?). -/
def runSwiftPattern : Bool × Bool → List Char → Option (List Char × List Char)
  | (false, req), s => searchDotSwift req s
  | (true, req), s => searchSlashSwift req s

/-- `swift_error_patterns` in priority order (xcode_statusline.py:188-193). -/
def swiftPatternList : List (Bool × Bool) :=
  [(false, true), (false, false), (true, true), (true, false)]

/-- `full_error` assembly (xcode_statusline.py:205-208). -/
def mkFullError (loc msg : List Char) : List Char :=
  if msg.isEmpty then loc else loc ++ (": ".toList) ++ msg

/-- The tier-1 per-line pattern loop (xcode_statusline.py:196-214): the first
accepted match appends `full_error` and breaks; a match rejected by the
warning, length, hex-run or duplicate filter falls through to the next
pattern. -/
def swiftTryPats : List (Bool × Bool) → List Char → List (List Char) → List (List Char)
  | [], _, acc => acc
  | pk :: rest, line, acc =>
    match runSwiftPattern pk line with
    | none => swiftTryPats rest line acc
    | some (loc, msg) =>
      if containsSub ("warning:".toList) (lowerList msg) then
        swiftTryPats rest line acc
      else
        if (mkFullError loc msg).length < 500 ∧
            hasRun isHexUpper 20 (mkFullError loc msg) = false ∧
            mkFullError loc msg ∉ acc then
          acc ++ [mkFullError loc msg]
        else swiftTryPats rest line acc

/-- Case-insensitive `re.search` of `<lit>\s+(.+)` (tier-2 patterns with
`re.IGNORECASE`, xcode_statusline.py:217-226): leftmost position where the
lowered line starts with `lit`, with `\s+(.+)` matching the remainder. -/
def searchCI (lit : List Char) : List Char → Option (List Char)
  | [] => none
  | c :: rest =>
    if lit.isPrefixOf (lowerList (c :: rest)) then
      match wsMsg ((c :: rest).drop lit.length) with
      | some m => some m
      | none => searchCI lit rest
    else searchCI lit rest

/-- Python `str.strip()` (ASCII whitespace). -/
def pyStrip (s : List Char) : List Char :=
  ((s.dropWhile isPySpace).reverse.dropWhile isPySpace).reverse

/-- `error_patterns` (xcode_statusline.py:217-222), lowered — under
IGNORECASE `error:` and `Error:` search identically. -/
def genericPatternList : List (List Char) :=
  ["error:".toList, "error:".toList, "fatal error:".toList,
   "compilation failed:".toList]

/-- One tier-2 pattern applied to one line (xcode_statusline.py:225-233);
no break: every pattern of the list runs on every line. -/
def genericStep (line : List Char) (acc : List (List Char)) (pat : List Char) :
    List (List Char) :=
  match searchCI pat line with
  | none => acc
  | some g =>
    if (pyStrip g).length < 500 ∧ hasRun isHexUpper 20 (pyStrip g) = false ∧
        pyStrip g ∉ acc then
      acc ++ [pyStrip g]
    else acc

/-- The tier-2 per-line pattern loop. -/
def genericTryPats : List (List Char) → List Char → List (List Char) → List (List Char)
  | [], _, acc => acc
  | pat :: rest, line, acc => genericTryPats rest line (genericStep line acc pat)

/-- Tier-1 pass over all lines (xcode_statusline.py:195-214). -/
def swiftLinesLoop : List (List Char) → List (List Char) → List (List Char)
  | [], acc => acc
  | l :: rest, acc => swiftLinesLoop rest (swiftTryPats swiftPatternList l acc)

/-- Tier-2 pass over all lines (xcode_statusline.py:224-233). -/
def genericLinesLoop : List (List Char) → List (List Char) → List (List Char)
  | [], acc => acc
  | l :: rest, acc => genericLinesLoop rest (genericTryPats genericPatternList l acc)

/-- Index of the first occurrence of `sep` in `s` (substring search). -/
def findSub (sep : List Char) : List Char → Option Nat
  | [] => if sep.isEmpty then some 0 else none
  | c :: rest =>
    if sep.isPrefixOf (c :: rest) then some 0
    else (findSub sep rest).map (fun n => n + 1)

/-- Fuel-bounded body of Python `str.split(sep)` (left-to-right,
non-overlapping); a fuel of `s.length` always suffices for nonempty `sep`. -/
def splitSepF (sep : List Char) : Nat → List Char → List (List Char)
  | 0, s => [s]
  | fuel + 1, s =>
    match findSub sep s with
    | none => [s]
    | some i => s.take i :: splitSepF sep fuel (s.drop (i + sep.length))

/-- Python `str.split(sep)` for nonempty `sep`. -/
def splitSep (sep s : List Char) : List (List Char) :=
  if sep.isEmpty then [s] else splitSepF sep s.length s

/-- `extract_errors_from_log` (xcode_statusline.py:174-246), applied to the
already-decoded log text (the gzip/raw read with `errors='ignore'` is the
decoding step abstracted away by taking `content` as input). -/
def extract_errors_from_log (content : List Char) : List (List Char) :=
  let lines := splitSep (['\n']) content
  let swift := swiftLinesLoop lines []
  if swift.isEmpty then genericLinesLoop lines [] else swift

/-! ## Build manifest model (`LogStoreManifest.plist`)

A manifest is the `logs` dictionary in iteration order; plist timestamps are
modelled as integers.  A decode failure of the manifest file (missing or
corrupt plist) is modelled as the manifest input being `none`. -/

/-- The nested `primaryObservable` record of a manifest entry. -/
structure Observable where
  highLevelStatus : Option String
  totalNumberOfErrors : Option Int
deriving DecidableEq

/-- One manifest entry (`build_info`); absent keys are `none`. -/
structure BuildInfo where
  timeStartedRecording : Option Int
  timeStoppedRecording : Option Int
  primaryObservable : Option Observable
  fileName : Option String
deriving DecidableEq

/-- `status.get('highLevelStatus', 'S')` after
`status = build_info.get('primaryObservable', {})`. -/
def highOf (b : BuildInfo) : String :=
  match b.primaryObservable with
  | none => "S"
  | some o => o.highLevelStatus.getD "S"

/-- `status.get('totalNumberOfErrors', 0)` likewise. -/
def errOf (b : BuildInfo) : Int :=
  match b.primaryObservable with
  | none => 0
  | some o => o.totalNumberOfErrors.getD 0

/-- The latest-completed-run scan (xcode_statusline.py:122-129 and
xcode_build_watcher.py:102-109): running maximum over
`timeStoppedRecording` (default 0), strict improvement, start value 0. -/
def findLatestAux : List (String × BuildInfo) → Int → Option BuildInfo → Option BuildInfo
  | [], _, best => best
  | kb :: rest, t, best =>
    let stop := kb.2.timeStoppedRecording.getD 0
    if t < stop then findLatestAux rest stop (some kb.2)
    else findLatestAux rest t best

/-- `latest_build` after the scan. -/
def findLatest (logs : List (String × BuildInfo)) : Option BuildInfo :=
  findLatestAux logs 0 none

/-- `check_build_failed` (xcode_statusline.py:117-141); `none` models the
`except` path of an unreadable manifest. -/
def check_build_failed : Option (List (String × BuildInfo)) → Bool × Int
  | none => (false, 0)
  | some logs =>
    match findLatest logs with
    | none => (false, 0)
    | some b => (decide (highOf b = "E"), errOf b)

/-- The active-build scan of `BuildWatcher.parse_build_status`
(xcode_build_watcher.py:96-99): an entry with no stop time and
`start_time > current_time - 300`. -/
def hasActiveBuild (logs : List (String × BuildInfo)) (now : Int) : Bool :=
  logs.any (fun kb =>
    kb.2.timeStoppedRecording.isNone &&
    decide (now - 300 < kb.2.timeStartedRecording.getD 0))

/-- `status_map.get(high_level_status, 'unknown')`
(xcode_build_watcher.py:119-120). -/
def statusMapGet (h : String) : String :=
  if h = "S" then "succeeded"
  else if h = "E" then "failed"
  else if h = "W" then "warning"
  else "unknown"

/-- `BuildWatcher.parse_build_status` (xcode_build_watcher.py:87-126):
`last` is `self.last_build_state`, returned on a manifest decode failure. -/
def parse_build_status (last : String × Int) (now : Int) :
    Option (List (String × BuildInfo)) → String × Int
  | none => last
  | some logs =>
    if hasActiveBuild logs now then ("building", 0)
    else
      match findLatest logs with
      | none => ("idle", 0)
      | some b => (statusMapGet (highOf b), errOf b)

/-- The latest-failed-run scan of `parse_build_errors_detailed`
(xcode_statusline.py:151-161): the running maximum advances only on entries
whose `highLevelStatus` is `E`. -/
def findLatestFailedAux : List (String × BuildInfo) → Int → Option BuildInfo → Option BuildInfo
  | [], _, best => best
  | kb :: rest, t, best =>
    let stop := kb.2.timeStoppedRecording.getD 0
    if t < stop ∧ highOf kb.2 = "E" then findLatestFailedAux rest stop (some kb.2)
    else findLatestFailedAux rest t best

/-- `latest_build` of `parse_build_errors_detailed`. -/
def findLatestFailed (logs : List (String × BuildInfo)) : Option BuildInfo :=
  findLatestFailedAux logs 0 none

/-- `parse_build_errors_detailed` (xcode_statusline.py:143-172); `readLog`
models `os.path.exists` plus the gzip/raw read of the log artifact, `none`
standing for a missing or unreadable file. -/
def parse_build_errors_detailed (m : Option (List (String × BuildInfo)))
    (readLog : String → Option (List Char)) : List (List Char) :=
  match m with
  | none => []
  | some logs =>
    match findLatestFailed logs with
    | none => []
    | some b =>
      let lf := b.fileName.getD ""
      if lf = "" then []
      else
        match readLog lf with
        | none => []
        | some content => extract_errors_from_log content

/-- The build-error aggregation step of `get_xcode_status`
(xcode_statusline.py:365-375): `(build_errors, detailed_errors)` given the
decoded manifest and the log reader. -/
def get_build_errors (m : Option (List (String × BuildInfo)))
    (readLog : String → Option (List Char)) : Int × List (List Char) :=
  let fc := check_build_failed m
  if fc.1 then
    let det := parse_build_errors_detailed m readLog
    (if det.isEmpty then fc.2 else (det.length : Int), det)
  else (0, [])

/-! ## ProjectResolver candidate matching

The directory-name candidate filters of the two resolver implementations:
`find_active_derived_data` (xcode_statusline.py:90-97) and
`BuildWatcher.find_active_derived_data` (xcode_build_watcher.py:61-65). -/

/-- Python `str.replace(pat, repl)` for nonempty `pat`: non-overlapping
left-to-right replacement of every occurrence. -/
def pyReplace (s pat repl : List Char) : List Char :=
  List.intercalate repl (splitSep pat s)

/-- Project-name derivation shared by both resolvers: strip every occurrence
of `.xcworkspace`, then of `.xcodeproj`, from the basename. -/
def deriveProjectName (base : List Char) : List Char :=
  pyReplace (pyReplace base (".xcworkspace".toList) []) (".xcodeproj".toList) []

/-- Candidate test of the statusline resolver (xcode_statusline.py:94-97):
name starts with the project name or its spaces-to-underscores variant. -/
def statuslineIsCandidate (projectName item : List Char) : Bool :=
  projectName.isPrefixOf item ||
  (pyReplace projectName ([' ']) (['_'])).isPrefixOf item

/-- Candidate test of the watcher resolver (xcode_build_watcher.py:64-65):
name starts with the project name. -/
def watcherIsCandidate (projectName item : List Char) : Bool :=
  projectName.isPrefixOf item

/-! ## Window-title parsing

`poll_xcode_status` (xcode_monitor_server.py:118-122) and `get_xcode_status`
(xcode_statusline.py:360-363) both split the window title on `" — "` and take
the first and last parts. -/

/-- `" — "` (space, em dash, space). -/
def titleSep : List Char := " — ".toList

/-- `parts[-1]` of a nonempty `str.split` result. -/
def pyLast : List (List Char) → List Char
  | [] => []
  | [x] => x
  | _ :: xs => pyLast xs

/-- The `(project_name, current_file)` window-title parse shared by
xcode_monitor_server.py:118-122 and xcode_statusline.py:360-363: when the
separator occurs, `(parts[0], parts[-1])`, else both empty. -/
def parseWindowTitle (title : List Char) : List Char × List Char :=
  if containsSub titleSep title then
    ((splitSep titleSep title).headD [], pyLast (splitSep titleSep title))
  else ([], [])

/-- Formalization of the claim's phrase "the text before the first
separator". -/
def claimBeforeFirstSep (sep s : List Char) : List Char :=
  match findSub sep s with
  | none => s
  | some i => s.take i

/-- Fuel-bounded scan for the claim's phrase "the text after the last
separator" (separators read left-to-right, non-overlapping). -/
def afterLastF (sep : List Char) : Nat → List Char → List Char
  | 0, s => s
  | fuel + 1, s =>
    match findSub sep s with
    | none => s
    | some i => afterLastF sep fuel (s.drop (i + sep.length))

/-- Formalization of the claim's phrase "the text after the last separator". -/
def claimAfterLastSep (sep s : List Char) : List Char :=
  afterLastF sep s.length s

/-- Fuel-bounded count of (left-to-right, non-overlapping) separator
occurrences. -/
def countSepF (sep : List Char) : Nat → List Char → Nat
  | 0, _ => 0
  | fuel + 1, s =>
    match findSub sep s with
    | none => 0
    | some i => 1 + countSepF sep fuel (s.drop (i + sep.length))

/-- Number of separator occurrences in `s`. -/
def countSepOcc (sep s : List Char) : Nat :=
  countSepF sep s.length s

/-! ## StatusCache (`XcodeStatus`, xcode_monitor_server.py:15-36)

The status dictionary is an insertion-ordered association list; `update`
merges the keyword arguments and bumps `last_update`; `get` returns
`self.data.copy()`.  Python object aliasing is modelled by a heap of
dictionaries addressed by index, so that the copy made by `get` and the
cache's own dictionary are distinct mutable cells. -/

/-- A JSON-scalar status value (the fields stored by this program are
booleans, numbers and strings; timestamps are modelled as integers). -/
inductive PVal where
  | pstr : String → PVal
  | pint : Int → PVal
  | pbool : Bool → PVal
deriving DecidableEq

/-- Dictionary lookup (`data[k]` presence). -/
def dlookup (k : String) : List (String × PVal) → Option PVal
  | [] => none
  | kv :: rest => if kv.1 = k then some kv.2 else dlookup k rest

/-- Python dict item assignment: replace in place, else append. -/
def setKey : List (String × PVal) → String → PVal → List (String × PVal)
  | [], k, v => [(k, v)]
  | kv :: rest, k, v =>
    if kv.1 = k then (kv.1, v) :: rest else kv :: setKey rest k v

/-- `XcodeStatus.update(**kwargs)` (xcode_monitor_server.py:29-32):
`self.data.update(kwargs)` then `self.data["last_update"] = time.time()`. -/
def statusUpdate (d : List (String × PVal)) (kwargs : List (String × PVal))
    (now : Int) : List (String × PVal) :=
  setKey (kwargs.foldl (fun a kv => setKey a kv.1 kv.2) d) "last_update" (PVal.pint now)

/-- The initial status dictionary (xcode_monitor_server.py:18-26). -/
def initialStatusData (t0 : Int) : List (String × PVal) :=
  [("xcode_running", PVal.pbool false), ("current_file", PVal.pstr ""),
   ("build_status", PVal.pstr "idle"), ("build_errors", PVal.pint 0),
   ("last_update", PVal.pint t0), ("project_name", PVal.pstr ""),
   ("derived_data_path", PVal.pstr "")]

/-- Heap read: the dictionary stored at address `a`. -/
def hGet : List (List (String × PVal)) → Nat → List (String × PVal)
  | [], _ => []
  | d :: _, 0 => d
  | _ :: rest, n + 1 => hGet rest n

/-- Heap write: replace the dictionary stored at address `a`. -/
def hSet : List (List (String × PVal)) → Nat → List (String × PVal) →
    List (List (String × PVal))
  | [], _, _ => []
  | _ :: rest, 0, d => d :: rest
  | x :: rest, n + 1, d => x :: hSet rest n d

/-- `XcodeStatus.get` (xcode_monitor_server.py:34-36): `self.data.copy()`
allocates a fresh dictionary cell and returns its address. -/
def statusGet (h : List (List (String × PVal))) (a : Nat) :
    List (List (String × PVal)) × Nat :=
  (h ++ [hGet h a], h.length)

/-- A caller mutating a dictionary it holds an address to
(`returned[k] = v`). -/
def mutateAt (h : List (List (String × PVal))) (a : Nat) (k : String)
    (v : PVal) : List (List (String × PVal)) :=
  hSet h a (setKey (hGet h a) k v)

/-! ## Concrete demonstration inputs -/

/-- A source-located `error:` line. -/
def demoErrLine : List Char := "/a.swift:1:2: error: x".toList

/-- A log consisting of that same error line twice. -/
def demoDupLog : List Char :=
  "/a.swift:1:2: error: x\n/a.swift:1:2: error: x".toList

/-- The entry pattern 1 produces for `demoErrLine`. -/
def demoEntry1 : List Char := "/a.swift:1:2: x".toList

/-- The additional entry pattern 2 produces for the repeated line. -/
def demoEntry2 : List Char := "/a.swift:1:2: error: x".toList

/-- C1, falsified: on a log holding the same source-located `error:` line
twice, the extractor emits TWO entries for it, because the per-line pattern
loop breaks only on an accepted match — the duplicate is rejected by the
dedup filter under pattern 1 and then accepted under pattern 2 with the
differently-assembled string `location: error: message`
(xcode_statusline.py:196-214, `break` at line 214 inside the accept branch). -/
theorem c1_counterexample :
    extract_errors_from_log demoErrLine = [demoEntry1] ∧
    extract_errors_from_log demoDupLog = [demoEntry1, demoEntry2] ∧
    demoEntry1 ≠ demoEntry2 :=
  ⟨by decide, by decide, by decide⟩

/-- A line matching pattern 1 whose message contains `warning` without a
colon. -/
def c4Line : List Char := "/a.swift:1:2: error: avoid warning here".toList

/-- C4, falsified: the code's filter tests for the substring `warning:`
(with colon, xcode_statusline.py:202), not `warning`; a tier-1 matched line
whose message contains `warning` but not `warning:` is kept in the output. -/
theorem c4_counterexample :
    runSwiftPattern (false, true) c4Line =
      some ("/a.swift:1:2".toList, "avoid warning here".toList) ∧
    containsSub ("warning".toList) (lowerList ("avoid warning here".toList)) = true ∧
    extract_errors_from_log c4Line = [("/a.swift:1:2: avoid warning here".toList)] :=
  ⟨by decide, by decide, by decide⟩

/-- The claim's notion of a hexadecimal digit (either letter case). -/
def isHexDigitCI (c : Char) : Bool :=
  isHexUpper c || ('a' ≤ c && c ≤ 'f')

/-- A line with a 24-character lowercase hex run in its message. -/
def c5Line : List Char :=
  "/a.swift:1:2: error: hash deadbeefdeadbeefdeadbeef here".toList

/-- The entry the extractor emits for `c5Line`. -/
def c5Entry : List Char :=
  "/a.swift:1:2: hash deadbeefdeadbeefdeadbeef here".toList

/-- C5, falsified: the hex-run filter uses the class `[0-9A-F]` without
IGNORECASE (xcode_statusline.py:211), so a combined string holding a
24-character lowercase hexadecimal run is NOT excluded. -/
theorem c5_counterexample :
    hasRun isHexDigitCI 20 c5Entry = true ∧
    extract_errors_from_log c5Line = [c5Entry] :=
  ⟨by decide, by decide⟩

/-- The derived project name of the active project `My App.xcodeproj`. -/
def c2Name : List Char := deriveProjectName ("My App.xcodeproj".toList)

/-- A build-output directory name using the underscore variant. -/
def c2Item : List Char := "My_App-abcdefg".toList

/-- C2, falsified for the watcher resolver: `My_App-abcdefg` starts with the
underscore-substituted variant of the space-containing project name
`My App`, yet `BuildWatcher.find_active_derived_data`
(xcode_build_watcher.py:64-65) does not treat it as a candidate; only the
statusline resolver (xcode_statusline.py:94-97) does. -/
theorem c2_counterexample :
    c2Name = ("My App".toList) ∧
    containsSub ([' ']) c2Name = true ∧
    (pyReplace c2Name ([' ']) (['_'])).isPrefixOf c2Item = true ∧
    statuslineIsCandidate c2Name c2Item = true ∧
    watcherIsCandidate c2Name c2Item = false :=
  ⟨by decide, by decide, by decide, by decide, by decide⟩

/-! ## Deduplication invariants of the extractor -/

/-- Appending an element absent from a duplicate-free list keeps it
duplicate-free. -/
theorem nodup_append_single (l : List (List Char)) (a : List Char)
    (h : l.Nodup) (ha : a ∉ l) : (l ++ [a]).Nodup := by
  simp [List.nodup_append, h, ha]

/-- The tier-1 per-line loop preserves freedom from duplicates. -/
theorem swiftTryPats_nodup (pks : List (Bool × Bool)) (line : List Char)
    (acc : List (List Char)) (h : acc.Nodup) :
    (swiftTryPats pks line acc).Nodup := by
  induction pks with
  | nil => simpa [swiftTryPats] using h
  | cons pk rest ih =>
    cases hr : runSwiftPattern pk line with
    | none => simpa [swiftTryPats, hr] using ih
    | some lm =>
      cases lm with
      | mk loc msg =>
        simp only [swiftTryPats, hr]
        split
        · exact ih
        · split
          · rename_i hc
            exact nodup_append_single _ _ h hc.2.2
          · exact ih

/-- One tier-2 pattern step preserves freedom from duplicates. -/
theorem genericStep_nodup (line : List Char) (acc : List (List Char))
    (pat : List Char) (h : acc.Nodup) : (genericStep line acc pat).Nodup := by
  cases hr : searchCI pat line with
  | none => simpa [genericStep, hr] using h
  | some g =>
    simp only [genericStep, hr]
    split
    · rename_i hc
      exact nodup_append_single _ _ h hc.2.2
    · exact h

/-- The tier-2 per-line loop preserves freedom from duplicates. -/
theorem genericTryPats_nodup (pats : List (List Char)) (line : List Char)
    (acc : List (List Char)) (h : acc.Nodup) :
    (genericTryPats pats line acc).Nodup := by
  induction pats generalizing acc with
  | nil => simpa [genericTryPats] using h
  | cons pat rest ih =>
    rw [genericTryPats]
    exact ih _ (genericStep_nodup line acc pat h)

/-- The tier-1 pass preserves freedom from duplicates. -/
theorem swiftLinesLoop_nodup (lines : List (List Char))
    (acc : List (List Char)) (h : acc.Nodup) :
    (swiftLinesLoop lines acc).Nodup := by
  induction lines generalizing acc with
  | nil => simpa [swiftLinesLoop] using h
  | cons l rest ih =>
    rw [swiftLinesLoop]
    exact ih _ (swiftTryPats_nodup swiftPatternList l acc h)

/-- The tier-2 pass preserves freedom from duplicates. -/
theorem genericLinesLoop_nodup (lines : List (List Char))
    (acc : List (List Char)) (h : acc.Nodup) :
    (genericLinesLoop lines acc).Nodup := by
  induction lines generalizing acc with
  | nil => simpa [genericLinesLoop] using h
  | cons l rest ih =>
    rw [genericLinesLoop]
    exact ih _ (genericTryPats_nodup genericPatternList l acc h)

/-- C1, amended: within a tier deduplication is first-seen-wins by exact
string, so the extractor's output never repeats a string; but the pattern
loop stops for a line only when a match is ACCEPTED — a match rejected by the
warning, length, hex-run or duplicate filter falls through to the next
pattern, so a repeated source-located `error:` line contributes a second,
differently-assembled entry (`location: error: message`) via pattern 2. -/
theorem c1_amended_dedup :
    (∀ content : List Char, (extract_errors_from_log content).Nodup) ∧
    extract_errors_from_log demoDupLog = [demoEntry1, demoEntry2] := by
  constructor
  · intro content
    rw [extract_errors_from_log]
    split
    · exact genericLinesLoop_nodup _ _ List.nodup_nil
    · exact swiftLinesLoop_nodup _ _ List.nodup_nil
  · decide

/-- Every tier-1 match of `line` carries the code's `warning:` marker
(case-insensitively) in its message group (xcode_statusline.py:202). -/
def allMatchesWarn (line : List Char) : Bool :=
  swiftPatternList.all (fun pk =>
    match runSwiftPattern pk line with
    | none => true
    | some lm => containsSub ("warning:".toList) (lowerList lm.2))

/-- If every pattern of `pks` either fails on `line` or extracts a message
containing `warning:`, the per-line loop adds nothing. -/
theorem swiftTryPats_all_warn (pks : List (Bool × Bool)) (line : List Char)
    (acc : List (List Char))
    (h : pks.all (fun pk =>
      match runSwiftPattern pk line with
      | none => true
      | some lm => containsSub ("warning:".toList) (lowerList lm.2)) = true) :
    swiftTryPats pks line acc = acc := by
  induction pks with
  | nil => rw [swiftTryPats]
  | cons pk rest ih =>
    simp only [List.all_cons, Bool.and_eq_true] at h
    cases hr : runSwiftPattern pk line with
    | none => simpa [swiftTryPats, hr] using ih h.2
    | some lm =>
      cases lm with
      | mk loc msg =>
        have hw : containsSub ("warning:".toList) (lowerList msg) = true := by
          have := h.1
          rw [hr] at this
          exact this
        simp only [swiftTryPats, hr, hw, if_true]
        exact ih h.2

/-- A two-line log holding a `warning:` line that matches the location shape
and a genuine error line. -/
def c4PairLog : List Char :=
  "/a.swift:1:2: warning: unused y\n/a.swift:3:4: error: real".toList

/-- C4, amended: the exclusion applies to messages containing the substring
`warning:` (with the colon), case-insensitively.  A line all of whose tier-1
matches carry that marker contributes no entry, while a source-located error
line without it in the same log still appears in the output. -/
theorem c4_amended_warning_filter (line : List Char) (acc : List (List Char))
    (h : allMatchesWarn line = true) :
    swiftTryPats swiftPatternList line acc = acc ∧
    extract_errors_from_log c4PairLog = [("/a.swift:3:4: real".toList)] := by
  constructor
  · exact swiftTryPats_all_warn swiftPatternList line acc h
  · decide

/-- Witness for C4: a concrete `warning:`-marked location line is dropped by
the tier-1 loop. -/
theorem c4_witness :
    allMatchesWarn ("/a.swift:1:2: warning: unused y".toList) = true ∧
    swiftTryPats swiftPatternList ("/a.swift:1:2: warning: unused y".toList) [] = [] :=
  ⟨by decide,
   (c4_amended_warning_filter ("/a.swift:1:2: warning: unused y".toList) []
     (by decide)).1⟩

/-- Every tier-1 match of `line` assembles a `full_error` containing a run of
at least 20 characters from the code's class `[0-9A-F]`. -/
def allMatchesHexRun (line : List Char) : Bool :=
  swiftPatternList.all (fun pk =>
    match runSwiftPattern pk line with
    | none => true
    | some lm => hasRun isHexUpper 20 (mkFullError lm.1 lm.2))

/-- If every pattern of `pks` either fails on `line` or assembles a string
with a 20-character `[0-9A-F]` run, the per-line loop adds nothing. -/
theorem swiftTryPats_all_hex (pks : List (Bool × Bool)) (line : List Char)
    (acc : List (List Char))
    (h : pks.all (fun pk =>
      match runSwiftPattern pk line with
      | none => true
      | some lm => hasRun isHexUpper 20 (mkFullError lm.1 lm.2)) = true) :
    swiftTryPats pks line acc = acc := by
  induction pks with
  | nil => rw [swiftTryPats]
  | cons pk rest ih =>
    simp only [List.all_cons, Bool.and_eq_true] at h
    cases hr : runSwiftPattern pk line with
    | none => simpa [swiftTryPats, hr] using ih h.2
    | some lm =>
      cases lm with
      | mk loc msg =>
        have hx : hasRun isHexUpper 20 (mkFullError loc msg) = true := by
          have := h.1
          rw [hr] at this
          exact this
        simp only [swiftTryPats, hr]
        split
        · exact ih h.2
        · rw [if_neg]
          · exact ih h.2
          · intro hc
            rw [hx] at hc
            exact absurd hc.2.1 (by simp)

/-- The same line as `c5Line` with the hex run in upper case. -/
def c5UpperLine : List Char :=
  "/a.swift:1:2: error: hash DEADBEEFDEADBEEFDEADBEEF here".toList

/-- C5, amended: the exclusion applies to runs of at least 20 consecutive
characters from the class `[0-9A-F]` (digits and UPPERCASE hex letters): a
line all of whose tier-1 matches assemble such a string contributes no
tier-1 entry, and the concrete upper-case 24-character run line yields no
output at all; a lowercase hex run is not excluded (see the
counterexample). -/
theorem c5_amended_hex_filter (line : List Char) (acc : List (List Char))
    (h : allMatchesHexRun line = true) :
    swiftTryPats swiftPatternList line acc = acc ∧
    extract_errors_from_log c5UpperLine = [] := by
  constructor
  · exact swiftTryPats_all_hex swiftPatternList line acc h
  · decide

/-- Witness for C5: the concrete line whose matches all contain the
24-character uppercase hex run is dropped by the tier-1 loop. -/
theorem c5_witness :
    allMatchesHexRun c5UpperLine = true ∧
    swiftTryPats swiftPatternList c5UpperLine [] = [] :=
  ⟨by decide, (c5_amended_hex_filter c5UpperLine [] (by decide)).1⟩

/-- C2, amended: only the statusline resolver
(`find_active_derived_data`, xcode_statusline.py:94-97) treats a
build-output directory as a candidate when its name starts with the
spaces-to-underscores variant of the project name; the watcher resolver
(xcode_build_watcher.py:64-65) matches only names starting with the project
name itself. -/
theorem c2_amended_underscore_variant (projectName item : List Char)
    (hspace : containsSub ([' ']) projectName = true)
    (hpre : (pyReplace projectName ([' ']) (['_'])).isPrefixOf item = true) :
    statuslineIsCandidate projectName item = true := by
  simp [statuslineIsCandidate, hpre]

/-- Witness for C2: the concrete space-containing project name and
underscore-named directory. -/
theorem c2_witness :
    containsSub ([' ']) c2Name = true ∧
    (pyReplace c2Name ([' ']) (['_'])).isPrefixOf c2Item = true ∧
    statuslineIsCandidate c2Name c2Item = true :=
  ⟨by decide, by decide,
   c2_amended_underscore_variant c2Name c2Item (by decide) (by decide)⟩

/-- C3: an entry with no stop time whose start time is within 300 seconds of
now makes `parse_build_status` report `("building", 0)` without evaluating
completed runs; an entry with no stop time whose start time is 600 seconds
old does not, and as the only entry it leaves no completed run, so the
reader reports `("idle", 0)` (xcode_build_watcher.py:96-112). -/
theorem c3_in_progress_threshold (last : String × Int) (now : Int)
    (logs : List (String × BuildInfo)) (rid : String) (b : BuildInfo) :
    (hasActiveBuild logs now = true →
      parse_build_status last now (some logs) = ("building", 0)) ∧
    (b.timeStoppedRecording = none → b.timeStartedRecording = some (now - 600) →
      parse_build_status last now (some [(rid, b)]) = ("idle", 0)) := by
  constructor
  · intro h
    simp [parse_build_status, h]
  · intro hstop hstart
    have hact : hasActiveBuild [(rid, b)] now = false := by
      simp [hasActiveBuild, hstop, hstart]
    have hlat : findLatest [(rid, b)] = none := by
      simp [findLatest, findLatestAux, hstop]
    simp [parse_build_status, hact, hlat]

/-- A manifest with one entry started 50 seconds ago and not stopped. -/
def c3ActiveLogs : List (String × BuildInfo) :=
  [("r1", ⟨some 950, none, none, none⟩)]

/-- An entry started 600 seconds before `now = 1000` and not stopped. -/
def c3StaleBuild : BuildInfo := ⟨some 400, none, none, none⟩

/-- Witness for C3 at `now = 1000`. -/
theorem c3_witness :
    hasActiveBuild c3ActiveLogs 1000 = true ∧
    parse_build_status ("idle", 0) 1000 (some c3ActiveLogs) = ("building", 0) ∧
    parse_build_status ("idle", 0) 1000 (some [("r1", c3StaleBuild)]) = ("idle", 0) :=
  ⟨by decide,
   (c3_in_progress_threshold ("idle", 0) 1000 c3ActiveLogs "r1" c3StaleBuild).1
     (by decide),
   (c3_in_progress_threshold ("idle", 0) 1000 c3ActiveLogs "r1" c3StaleBuild).2
     (by decide) (by decide)⟩

/-- C7: a manifest decode failure is non-fatal — the watcher's reader
returns the previously cached `(status, errors)` pair
(xcode_build_watcher.py:124-126) and the statusline's `check_build_failed`
returns `(False, 0)` instead of raising (xcode_statusline.py:140-141). -/
theorem c7_decode_failure_fallback (last : String × Int) (now : Int) :
    parse_build_status last now none = last ∧
    check_build_failed none = (false, 0) :=
  ⟨rfl, rfl⟩

/-- The selected run lacks a `primaryObservable` record or its
`highLevelStatus` field. -/
def obsStatusMissing (b : BuildInfo) : Bool :=
  match b.primaryObservable with
  | none => true
  | some o => o.highLevelStatus.isNone

/-- The selected run lacks a `totalNumberOfErrors` field. -/
def errFieldMissing (b : BuildInfo) : Bool :=
  match b.primaryObservable with
  | none => true
  | some o => o.totalNumberOfErrors.isNone

/-- C9: when the latest completed run lacks `primaryObservable` or
`highLevelStatus`, both readers default the status to `'S'`:
`check_build_failed` reports not-failed and `parse_build_status` reports
"succeeded", the error count defaulting to 0 when `totalNumberOfErrors` is
absent (xcode_statusline.py:131-138, xcode_build_watcher.py:111-122). -/
theorem c9_missing_status_defaults (last : String × Int) (now : Int)
    (logs : List (String × BuildInfo)) (b : BuildInfo)
    (hact : hasActiveBuild logs now = false)
    (hlat : findLatest logs = some b)
    (hmiss : obsStatusMissing b = true) :
    check_build_failed (some logs) = (false, errOf b) ∧
    parse_build_status last now (some logs) = ("succeeded", errOf b) ∧
    (errFieldMissing b = true → errOf b = 0) := by
  have hS : highOf b = "S" := by
    cases hpo : b.primaryObservable with
    | none => simp [highOf, hpo]
    | some o =>
      rw [obsStatusMissing, hpo] at hmiss
      have hmiss' : o.highLevelStatus = none := Option.isNone_iff_eq_none.mp hmiss
      simp [highOf, hpo, hmiss']
  refine ⟨?_, ?_, ?_⟩
  · simp [check_build_failed, hlat, hS]
  · simp [parse_build_status, hact, hlat, hS, statusMapGet]
  · intro hm
    cases hpo : b.primaryObservable with
    | none => simp [errOf, hpo]
    | some o =>
      rw [errFieldMissing, hpo] at hm
      have hm' : o.totalNumberOfErrors = none := Option.isNone_iff_eq_none.mp hm
      simp [errOf, hpo, hm']

/-- A completed run with no `primaryObservable` at all. -/
def c9Build : BuildInfo := ⟨some 0, some 100, none, none⟩

/-- A one-entry manifest holding `c9Build`. -/
def c9Logs : List (String × BuildInfo) := [("r1", c9Build)]

/-- Witness for C9 at `now = 1000`. -/
theorem c9_witness :
    hasActiveBuild c9Logs 1000 = false ∧ findLatest c9Logs = some c9Build ∧
    obsStatusMissing c9Build = true ∧
    check_build_failed (some c9Logs) = (false, errOf c9Build) ∧
    parse_build_status ("idle", 0) 1000 (some c9Logs) = ("succeeded", errOf c9Build) ∧
    (errFieldMissing c9Build = true → errOf c9Build = 0) := by
  have h := c9_missing_status_defaults ("idle", 0) 1000 c9Logs c9Build
    (by decide) (by decide) (by decide)
  exact ⟨by decide, by decide, by decide, h.1, h.2.1, h.2.2⟩

/-- C6: when the latest completed run is Failed, the aggregator's error
count is the length of the detailed extraction when it is nonempty and the
manifest's raw `totalNumberOfErrors` otherwise
(xcode_statusline.py:372-375). -/
theorem c6_error_count_fallback (logs : List (String × BuildInfo))
    (readLog : String → Option (List Char)) (b : BuildInfo)
    (hlat : findLatest logs = some b) (hE : highOf b = "E") :
    (get_build_errors (some logs) readLog).1 =
      (if (parse_build_errors_detailed (some logs) readLog).isEmpty then errOf b
       else ((parse_build_errors_detailed (some logs) readLog).length : Int)) := by
  have hc : check_build_failed (some logs) = (true, errOf b) := by
    simp [check_build_failed, hlat, hE]
  cases hemp : (parse_build_errors_detailed (some logs) readLog).isEmpty with
  | false => simp [get_build_errors, hc, hemp]
  | true => simp [get_build_errors, hc, hemp]

/-- A failed run whose log artifact is `log1`. -/
def c6Build : BuildInfo := ⟨some 0, some 100, some ⟨some "E", some 3⟩, some "log1"⟩

/-- A one-entry manifest holding `c6Build`. -/
def c6Logs : List (String × BuildInfo) := [("r1", c6Build)]

/-- A log store mapping `log1` to a one-error log. -/
def c6ReadLog : String → Option (List Char) :=
  fun s => if s = "log1" then some demoErrLine else none

/-- Witness for C6. -/
theorem c6_witness :
    findLatest c6Logs = some c6Build ∧ highOf c6Build = "E" ∧
    (get_build_errors (some c6Logs) c6ReadLog).1 =
      (if (parse_build_errors_detailed (some c6Logs) c6ReadLog).isEmpty then errOf c6Build
       else ((parse_build_errors_detailed (some c6Logs) c6ReadLog).length : Int)) :=
  ⟨by decide, by decide,
   c6_error_count_fallback c6Logs c6ReadLog c6Build (by decide) (by decide)⟩

/-- Lookup after a single key assignment. -/
theorem dlookup_setKey (d : List (String × PVal)) (k k' : String) (v : PVal) :
    dlookup k (setKey d k' v) = if k' = k then some v else dlookup k d := by
  induction d with
  | nil => simp [setKey, dlookup]
  | cons kv rest ih =>
    by_cases h1 : kv.1 = k'
    · by_cases h2 : k' = k
      · simp [setKey, dlookup, h1, h2]
      · have h3 : ¬ kv.1 = k := by rw [h1]; exact h2
        simp [setKey, dlookup, h1, h2, h3]
    · by_cases h2 : kv.1 = k
      · have h3 : ¬ k' = k := fun hh => h1 (h2.trans hh.symm)
        have h4 : ¬ k = k' := fun hh => h3 hh.symm
        simp [setKey, dlookup, h1, h2, h3, h4]
      · simp [setKey, dlookup, h1, h2, ih]

/-- The merge loop of `dict.update` leaves untouched keys unchanged. -/
theorem dlookup_foldl_setKey (kwargs : List (String × PVal))
    (d : List (String × PVal)) (k : String)
    (h : ∀ kv ∈ kwargs, kv.1 ≠ k) :
    dlookup k (kwargs.foldl (fun a kv => setKey a kv.1 kv.2) d) = dlookup k d := by
  induction kwargs generalizing d with
  | nil => simp
  | cons kv rest ih =>
    simp only [List.foldl_cons]
    rw [ih _ (fun x hx => h x (List.mem_cons_of_mem _ hx))]
    rw [dlookup_setKey]
    rw [if_neg (h kv (List.mem_cons_self _ _))]

/-- Reading below the end of a heap ignores an appended cell. -/
theorem hGet_append_left (h : List (List (String × PVal)))
    (x : List (String × PVal)) (a : Nat) (ha : a < h.length) :
    hGet (h ++ [x]) a = hGet h a := by
  induction h generalizing a with
  | nil => simp at ha
  | cons d rest ih =>
    cases a with
    | zero => rfl
    | succ n =>
      show hGet (rest ++ [x]) n = hGet rest n
      exact ih n (Nat.succ_lt_succ_iff.mp ha)

/-- Writing one heap cell leaves every other cell unchanged. -/
theorem hGet_hSet_ne (h : List (List (String × PVal))) (i a : Nat)
    (d : List (String × PVal)) (hne : i ≠ a) :
    hGet (hSet h i d) a = hGet h a := by
  induction h generalizing i a with
  | nil => rfl
  | cons x rest ih =>
    cases i with
    | zero =>
      cases a with
      | zero => exact absurd rfl hne
      | succ n => rfl
    | succ m =>
      cases a with
      | zero => rfl
      | succ n => exact ih m n (fun hh => hne (by rw [hh]))

/-- C8: `XcodeStatus.update` keeps every stored field whose key is not among
the passed fields, except `last_update` which is set to the current time;
and `XcodeStatus.get` returns a fresh copy, so mutating the returned
dictionary does not change the cached one
(xcode_monitor_server.py:15-36). -/
theorem c8_cache_update_get (d : List (String × PVal))
    (kwargs : List (String × PVal)) (now : Int) (k : String)
    (heap : List (List (String × PVal))) (a : Nat) (key : String) (v : PVal)
    (h1 : ∀ kv ∈ kwargs, kv.1 ≠ k) (h2 : k ≠ "last_update")
    (h3 : a < heap.length) :
    dlookup k (statusUpdate d kwargs now) = dlookup k d ∧
    dlookup "last_update" (statusUpdate d kwargs now) = some (PVal.pint now) ∧
    hGet (mutateAt (statusGet heap a).1 (statusGet heap a).2 key v) a = hGet heap a := by
  refine ⟨?_, ?_, ?_⟩
  · rw [statusUpdate, dlookup_setKey]
    rw [if_neg (fun hh => h2 hh.symm)]
    exact dlookup_foldl_setKey kwargs d k h1
  · rw [statusUpdate, dlookup_setKey]
    simp
  · show hGet (mutateAt (heap ++ [hGet heap a]) heap.length key v) a = hGet heap a
    rw [mutateAt]
    rw [hGet_hSet_ne _ _ _ _ (by omega)]
    exact hGet_append_left heap _ a h3

/-- Partial fields of a concrete update call. -/
def c8Kwargs : List (String × PVal) :=
  [("build_status", PVal.pstr "failed"), ("build_errors", PVal.pint 2)]

/-- A heap holding the cache's dictionary at address 0. -/
def c8Heap : List (List (String × PVal)) := [initialStatusData 0]

/-- Witness for C8: untouched key `project_name`, bumped `last_update`, and
mutation of the copy returned by `get` leaving the cached cell intact. -/
theorem c8_witness :
    (∀ kv ∈ c8Kwargs, kv.1 ≠ "project_name") ∧
    dlookup "project_name" (statusUpdate (initialStatusData 0) c8Kwargs 42) =
      dlookup "project_name" (initialStatusData 0) ∧
    dlookup "last_update" (statusUpdate (initialStatusData 0) c8Kwargs 42) =
      some (PVal.pint 42) ∧
    hGet (mutateAt (statusGet c8Heap 0).1 (statusGet c8Heap 0).2 "build_errors"
      (PVal.pint 9)) 0 = hGet c8Heap 0 := by
  have h := c8_cache_update_get (initialStatusData 0) c8Kwargs 42 "project_name"
    c8Heap 0 "build_errors" (PVal.pint 9) (by decide) (by decide) (by decide)
  exact ⟨by decide, h.1, h.2.1, h.2.2⟩

/-- A prefix is no longer than the whole string. -/
theorem isPrefixOf_length_le : ∀ (l s : List Char), l.isPrefixOf s = true →
    l.length ≤ s.length := by
  intro l
  induction l with
  | nil =>
    intro s h
    simp
  | cons a as ih =>
    intro s h
    cases s with
    | nil => simp [List.isPrefixOf] at h
    | cons b bs =>
      simp only [List.isPrefixOf, Bool.and_eq_true, beq_iff_eq] at h
      simpa using ih bs h.2

/-- A found occurrence fits inside the string. -/
theorem findSub_bound (sep : List Char) (hsep : sep ≠ []) :
    ∀ (s : List Char) (i : Nat), findSub sep s = some i →
      i + sep.length ≤ s.length := by
  intro s
  induction s with
  | nil =>
    intro i h
    cases sep with
    | nil => exact absurd rfl hsep
    | cons a as => simp [findSub] at h
  | cons c rest ih =>
    intro i h
    rw [findSub] at h
    by_cases hp : sep.isPrefixOf (c :: rest) = true
    · rw [if_pos hp] at h
      have hi : i = 0 := (Option.some.inj h).symm
      subst hi
      simpa using isPrefixOf_length_le sep (c :: rest) hp
    · rw [if_neg hp] at h
      rcases Option.map_eq_some'.mp h with ⟨j, hj, hji⟩
      have := ih j hj
      simp only [List.length_cons]
      omega

/-- A found occurrence makes the substring test true. -/
theorem containsSub_of_findSub (sep : List Char) :
    ∀ (s : List Char) (i : Nat), findSub sep s = some i →
      containsSub sep s = true := by
  intro s
  induction s with
  | nil =>
    intro i h
    rw [findSub] at h
    by_cases he : sep.isEmpty = true
    · exact he
    · rw [if_neg he] at h
      exact Option.noConfusion h
  | cons c rest ih =>
    intro i h
    rw [findSub] at h
    rw [containsSub]
    by_cases hp : sep.isPrefixOf (c :: rest) = true
    · simp [hp]
    · rw [if_neg hp] at h
      rcases Option.map_eq_some'.mp h with ⟨j, hj, _⟩
      simp [ih j hj]

/-- The split never returns an empty list of parts. -/
theorem splitSepF_ne_nil (sep : List Char) (fuel : Nat) (s : List Char) :
    splitSepF sep fuel s ≠ [] := by
  cases fuel with
  | zero => simp [splitSepF]
  | succ n =>
    rw [splitSepF]
    cases findSub sep s <;> simp

/-- `parts[-1]` ignores a leading part when more parts follow. -/
theorem pyLast_cons (x : List Char) (l : List (List Char)) (h : l ≠ []) :
    pyLast (x :: l) = pyLast l := by
  cases l with
  | nil => exact absurd rfl h
  | cons y ys => rfl

/-- `parts[0]` is the text before the first separator occurrence. -/
theorem splitSepF_head (sep : List Char) (hsep : sep ≠ []) (fuel : Nat)
    (s : List Char) (hf : s.length ≤ fuel) :
    (splitSepF sep fuel s).headD [] = claimBeforeFirstSep sep s := by
  cases fuel with
  | zero =>
    have hs : s = [] := List.length_eq_zero.mp (Nat.le_zero.mp hf)
    subst hs
    have hn : findSub sep [] = none := by
      cases sep with
      | nil => exact absurd rfl hsep
      | cons a as => simp [findSub]
    simp [splitSepF, claimBeforeFirstSep, hn]
  | succ n =>
    rw [splitSepF, claimBeforeFirstSep]
    cases hfs : findSub sep s with
    | none => simp
    | some i => simp

/-- `parts[-1]` is the text after the last separator occurrence. -/
theorem splitSepF_last (sep : List Char) (hsep : sep ≠ []) :
    ∀ (fuel : Nat) (s : List Char), s.length ≤ fuel →
      pyLast (splitSepF sep fuel s) = afterLastF sep fuel s := by
  intro fuel
  induction fuel with
  | zero =>
    intro s hf
    rfl
  | succ n ih =>
    intro s hf
    rw [splitSepF, afterLastF]
    cases hfs : findSub sep s with
    | none => rfl
    | some i =>
      rw [pyLast_cons _ _ (splitSepF_ne_nil sep n _)]
      refine ih _ ?_
      rw [List.length_drop]
      have hb := findSub_bound sep hsep s i hfs
      have hsl : 1 ≤ sep.length := List.length_pos.mpr hsep
      omega

/-- Without any occurrence the count is zero. -/
theorem countSepF_eq_zero_of_none (sep : List Char) (s : List Char)
    (h : findSub sep s = none) (fuel : Nat) : countSepF sep fuel s = 0 := by
  cases fuel with
  | zero => rfl
  | succ n => simp [countSepF, h]

/-- C10: for a window title containing `" — "` at least twice, the parsed
project name is the text before the first separator and the parsed current
file is the text after the last separator; middle segments are discarded
(xcode_monitor_server.py:118-122, xcode_statusline.py:360-363). -/
theorem c10_title_split (title : List Char)
    (h2 : 2 ≤ countSepOcc titleSep title) :
    parseWindowTitle title =
      (claimBeforeFirstSep titleSep title, claimAfterLastSep titleSep title) := by
  have hsep : titleSep ≠ [] := by decide
  have hocc : ∃ i, findSub titleSep title = some i := by
    cases hfs : findSub titleSep title with
    | some i => exact ⟨i, rfl⟩
    | none =>
      rw [countSepOcc, countSepF_eq_zero_of_none titleSep title hfs] at h2
      omega
  obtain ⟨i, hi⟩ := hocc
  have hc : containsSub titleSep title = true :=
    containsSub_of_findSub titleSep title i hi
  rw [parseWindowTitle, if_pos hc, splitSep, if_neg (by decide), claimAfterLastSep]
  rw [splitSepF_head titleSep hsep title.length title le_rfl]
  rw [splitSepF_last titleSep hsep title.length title le_rfl]

/-- A window title with two separators. -/
def c10Title : List Char := "MyApp — Sub — Main.swift".toList

/-- Witness for C10. -/
theorem c10_witness :
    2 ≤ countSepOcc titleSep c10Title ∧
    parseWindowTitle c10Title = (("MyApp".toList), ("Main.swift".toList)) := by
  have h := c10_title_split c10Title (by decide)
  exact ⟨by decide, by rw [h]; decide⟩
